import Mathlib

/-!
Verification development for the party-game WebSocket server (server.js).

Shallow embedding of the server's in-memory game state and its message
handlers.  JavaScript objects used as string-keyed maps (gameSessions,
rounds.votes) are embedded as association lists with update-or-append
assignment (objSet), matching JS property-assignment semantics.  Phase
names are kept as the string literals the source assigns ("LOBBY",
"TYPING", "READING", "VOTING", "SCORE", "END").  Math.random draws are
modelled by oracle parameters: the typer choice index
Math.floor(Math.random() * availablePlayers.length) is an arbitrary
natural r taken modulo the pool length, and generateRoomCode's fresh code
is an oracle string (its do/while loop discards colliding draws, so a
colliding oracle draw is embedded as a no-op that real executions never
take).  The 40-second setTimeout scheduled by submitText is embedded as a
separate timer event that, when it fires, performs exactly the callback's
mutation.  Outbound ws.send / broadcast calls are returned as lists of
Sent records; the server never closes a connection from a handler, so no
close effect exists in the model.  Thrown JS exceptions (property
assignment on a null/undefined payload; indexing an empty player pool)
are embedded as a Bool "threw" flag carrying the partially mutated state,
and the try/catch in ws.on("message") maps a throw to the single
"Invalid message format." ERROR reply, as in the source.
-/

namespace MG

/-- A member of a room: the `{ clientId, ws, playerName, score }` objects
pushed into `session.players`.  The `ws` handle itself is not part of the
game state; its identity is the clientId and sends are recorded in `Sent`. -/
structure Player where
  clientId : String
  playerName : String
  score : Nat
deriving DecidableEq, Repr

/-- The `session.rounds` object: `{ currentTyperId, playersWhoHaveTyped,
submittedText, votes }`.  `currentTyperId` is `null` initially, embedded
as `none`.  `votes` is a JS object `{ voterId: votedPlayerId }`, embedded
as an association list written only through `objSet`. -/
structure Rounds where
  currentTyperId : Option String
  playersWhoHaveTyped : List String
  submittedText : String
  votes : List (String × String)
deriving DecidableEq, Repr

/-- One entry of `gameSessions`: `{ roomCode, hostId, players, gameState,
rounds }`.  `gameState` holds one of the string literals the source
assigns. -/
structure Session where
  roomCode : String
  hostId : String
  players : List Player
  gameState : String
  rounds : Rounds
deriving DecidableEq, Repr

/-- The global `gameSessions` object, an insertion-ordered string-keyed
map. -/
abbrev Sessions := List (String × Session)

/-- JS property read `m[k]`: the value at the first matching key, if any. -/
def objGet {α : Type} : List (String × α) → String → Option α
  | [], _ => none
  | (k', v) :: rest, k => if k' = k then some v else objGet rest k

/-- JS property assignment `m[k] = v`: overwrite the existing key in
place, else append. -/
def objSet {α : Type} : List (String × α) → String → α → List (String × α)
  | [], k, v => [(k, v)]
  | (k', v') :: rest, k, v =>
      if k' = k then (k, v) :: rest else (k', v') :: objSet rest k v

/-- One outbound `ws.send`: recipient clientId, message `type`, and the
`payload.message` text for ERROR messages (empty otherwise). -/
structure Sent where
  dest : String
  mtype : String
  text : String
deriving DecidableEq, Repr

/-- `broadcastToRoom(roomCode, message, excludeClientId)`: send to every
player of the room whose clientId differs from the exclusion (`null`
excludes nobody).  In the modelled event order every present player's
socket is open. -/
def broadcastToRoom (st : Sessions) (roomCode : String) (mtype : String)
    (excludeClientId : Option String) : List Sent :=
  match objGet st roomCode with
  | none => []
  | some s =>
      (s.players.filter (fun p => decide (excludeClientId ≠ some p.clientId))).map
        (fun p => ⟨p.clientId, mtype, ""⟩)

/-- The fresh session object built by `createRoom`. -/
def initSession (roomCode clientId playerName : String) : Session :=
  { roomCode := roomCode
    hostId := clientId
    players := [⟨clientId, playerName, 0⟩]
    gameState := "LOBBY"
    rounds := ⟨none, [], "", []⟩ }

/-- `session.players.push({ clientId, ws, playerName, score: 0 })`. -/
def joinSession (s : Session) (clientId playerName : String) : Session :=
  { s with players := s.players ++ [⟨clientId, playerName, 0⟩] }

/-- `session.gameState = "TYPING"` (the assignment in `startGame`). -/
def typingSession (s : Session) : Session :=
  { s with gameState := "TYPING" }

/-- The round reset at the top of `startNewRound`: clear `submittedText`
and `votes`, set `gameState = "TYPING"`. -/
def resetRoundData (s : Session) : Session :=
  { s with gameState := "TYPING"
           rounds := { s.rounds with submittedText := "", votes := [] } }

/-- The mutation in `submitText`: store the text and move to READING. -/
def submitSession (s : Session) (text : String) : Session :=
  { s with gameState := "READING"
           rounds := { s.rounds with submittedText := text } }

/-- `session.rounds.votes[clientId] = votedPlayerId` in `handleVote`. -/
def voteSession (s : Session) (clientId votedPlayerId : String) : Session :=
  { s with rounds :=
      { s.rounds with votes := objSet s.rounds.votes clientId votedPlayerId } }

/-- The timeout callback body: `gameState = "VOTING"`. -/
def votingSession (s : Session) : Session :=
  { s with gameState := "VOTING" }

/-- The per-player test in `calculateScores`:
`votes[player.clientId] && votes[player.clientId] === typerId`.
A recorded vote is truthy iff it is a non-empty string; `===` against the
typer id (a string or `null`) holds iff the typer is that same string. -/
def voteHit (typer : Option String) (votes : List (String × String)) (p : Player) : Bool :=
  match objGet votes p.clientId with
  | some v => decide (v ≠ "") && decide (typer = some v)
  | none => false

/-- `player.score += 1` when the player's vote hit the typer. -/
def applyVote (typer : Option String) (votes : List (String × String)) (p : Player) : Player :=
  if voteHit typer votes p then { p with score := p.score + 1 } else p

/-- The whole-session effect of `calculateScores`: credit each correct
voter with one point; `gameHasWinner` is set inside the increment branch,
so only a player incremented in this call whose new score reaches 10
flips the phase to END, otherwise SCORE. -/
def calcSession (s : Session) : Session :=
  { s with
      players := s.players.map (applyVote s.rounds.currentTyperId s.rounds.votes)
      gameState :=
        if s.players.any (fun p =>
            voteHit s.rounds.currentTyperId s.rounds.votes p && decide (10 ≤ p.score + 1))
        then "END" else "SCORE" }

/-- `session.players.splice(playerIndex, 1)` after `findIndex` on the
clientId: remove the first matching player. -/
def closeSession (s : Session) (clientId : String) : Session :=
  { s with players := s.players.eraseP (fun p => p.clientId == clientId) }

/-- The typer-pool computation of `startNewRound`: the
`playersWhoHaveTyped` value after the possible reset, paired with the
`availablePlayers` pool — the players not yet in `playersWhoHaveTyped`,
or, when that filter is empty, the reset list `[]` together with the
whole player list. -/
def poolOf (s : Session) : List String × List Player :=
  let avail0 := s.players.filter
    (fun p => decide (p.clientId ∉ s.rounds.playersWhoHaveTyped))
  if avail0.isEmpty then ([], s.players) else (s.rounds.playersWhoHaveTyped, avail0)

/-- The body of `startNewRound` on one session, after the room lookup:
reset round data, compute the pool (see `poolOf`), then index the pool at
the oracle's draw and append the chosen clientId.  When the pool is still
empty (an empty room, which live rooms never are) the source throws
reading `.clientId` of `undefined`; the resets already applied are kept
and the throw is reported in the Bool. -/
def startNewRoundS (s : Session) (r : Nat) : Session × Bool :=
  let s1 := resetRoundData s
  let tp := poolOf s1
  match tp.2.get? (r % tp.2.length) with
  | none =>
      ({ s1 with rounds := { s1.rounds with playersWhoHaveTyped := tp.1 } }, true)
  | some p =>
      ({ s1 with rounds :=
          { s1.rounds with
              currentTyperId := some p.clientId
              playersWhoHaveTyped := tp.1 ++ [p.clientId] } }, false)

/-- `createRoom({ ws, clientId, playerName })` with the oracle's fresh
room code; `generateRoomCode` retries on collision, so a colliding draw
is a discarded no-op that real executions never take. -/
def createRoom (st : Sessions) (genCode clientId playerName : String) :
    Sessions × List Sent :=
  if (objGet st genCode).isSome then (st, [])
  else (objSet st genCode (initSession genCode clientId playerName),
        [⟨clientId, "ROOM_CREATED", ""⟩])

/-- `joinRoom({ ws, clientId, roomCode, playerName })`. -/
def joinRoom (st : Sessions) (clientId roomCode playerName : String) :
    Sessions × List Sent :=
  match objGet st roomCode with
  | none => (st, [⟨clientId, "ERROR", "Room not found."⟩])
  | some s =>
      if 8 ≤ s.players.length then (st, [⟨clientId, "ERROR", "Room is full."⟩])
      else
        let st' := objSet st roomCode (joinSession s clientId playerName)
        (st', ⟨clientId, "JOINED_ROOM", ""⟩ ::
              broadcastToRoom st' roomCode "UPDATE_GAME_STATE" (some clientId))

/-- `startNewRound({ roomCode })` with the typer-choice oracle. -/
def startNewRound (st : Sessions) (roomCode : String) (r : Nat) :
    Sessions × List Sent × Bool :=
  match objGet st roomCode with
  | none => (st, [], false)
  | some s =>
      let res := startNewRoundS s r
      let st' := objSet st roomCode res.1
      (st', if res.2 then [] else broadcastToRoom st' roomCode "NEW_ROUND" none, res.2)

/-- `startGame({ roomCode, clientId })`: silent return unless the
requester is the host; error to the requester (found in `players` by id;
the source throws if the find misses) when fewer than 3 players; else set
TYPING and start a round.  No phase is checked. -/
def startGame (st : Sessions) (clientId roomCode : String) (r : Nat) :
    Sessions × List Sent × Bool :=
  match objGet st roomCode with
  | none => (st, [], false)
  | some s =>
      if s.hostId ≠ clientId then (st, [], false)
      else if s.players.length < 3 then
        match s.players.find? (fun p => p.clientId == clientId) with
        | none => (st, [], true)
        | some _ =>
            (st, [⟨clientId, "ERROR", "Need at least 3 players to start."⟩], false)
      else startNewRound (objSet st roomCode (typingSession s)) roomCode r

/-- `submitText({ roomCode, clientId, text })`: silent return unless the
sender is `currentTyperId`; no phase is checked.  The 40s timeout it
schedules is the separate `timerFire` event. -/
def submitText (st : Sessions) (clientId roomCode text : String) :
    Sessions × List Sent :=
  match objGet st roomCode with
  | none => (st, [])
  | some s =>
      if s.rounds.currentTyperId ≠ some clientId then (st, [])
      else
        let st' := objSet st roomCode (submitSession s text)
        (st', broadcastToRoom st' roomCode "TEXT_SUBMITTED" none)

/-- `calculateScores(roomCode)`. -/
def calculateScores (st : Sessions) (roomCode : String) : Sessions × List Sent :=
  match objGet st roomCode with
  | none => (st, [])
  | some s =>
      let st' := objSet st roomCode (calcSession s)
      (st', broadcastToRoom st' roomCode "ROUND_OVER" none)

/-- `handleVote({ roomCode, clientId, votedPlayerId })`: record the vote
whenever the room exists and the phase is VOTING (no voter check), then
trigger `calculateScores` exactly when the number of vote keys equals the
number of players other than the typer. -/
def handleVote (st : Sessions) (clientId roomCode votedPlayerId : String) :
    Sessions × List Sent :=
  match objGet st roomCode with
  | none => (st, [])
  | some s =>
      if s.gameState ≠ "VOTING" then (st, [])
      else
        let s' := voteSession s clientId votedPlayerId
        let st' := objSet st roomCode s'
        let voters := s'.players.filter
          (fun p => decide (some p.clientId ≠ s'.rounds.currentTyperId))
        if s'.rounds.votes.length = voters.length then calculateScores st' roomCode
        else (st', [])

/-- The firing of the 40-second timeout scheduled by `submitText`: move
to VOTING and broadcast, unless the room has been deleted meanwhile. -/
def timerFire (st : Sessions) (roomCode : String) : Sessions × List Sent :=
  match objGet st roomCode with
  | none => (st, [])
  | some s =>
      let st' := objSet st roomCode (votingSession s)
      (st', broadcastToRoom st' roomCode "VOTING_STARTED" none)

/-- The `ws.on("close")` handler: walk the rooms in insertion order, and
in the first room containing the client remove them; delete the room when
it becomes empty, else broadcast the update; stop after that room. -/
def closeConn : Sessions → String → Sessions × List Sent
  | [], _ => ([], [])
  | (code, s) :: rest, clientId =>
      if s.players.any (fun p => p.clientId == clientId) then
        let s' := closeSession s clientId
        if s'.players.isEmpty then (rest, [])
        else ((code, s') :: rest,
              s'.players.map (fun p => ⟨p.clientId, "UPDATE_GAME_STATE", ""⟩))
      else
        let res := closeConn rest clientId
        ((code, s) :: res.1, res.2)

/-- An inbound envelope's payload fields.  The protocol carries string
fields; an absent or null payload object is `Envelope.payload = none`. -/
structure Payload where
  roomCode : String
  playerName : String
  text : String
  votedPlayerId : String
  sound : String
deriving DecidableEq, Repr

/-- An inbound envelope `{ type, payload }`. -/
structure Envelope where
  type : String
  payload : Option Payload
deriving DecidableEq, Repr

/-- `handleMessage(ws, message)`.  The source first executes
`payload.ws = ws`, which throws a TypeError when the payload is absent or
null — before the switch on `type` — so every such envelope throws
regardless of its type; the Bool records the throw.  Otherwise it is the
routing switch.  `r` and `genCode` are the oracles for the two
Math.random draws reachable from a dispatch. -/
def handleMessage (st : Sessions) (senderId : String) (e : Envelope)
    (r : Nat) (genCode : String) : Sessions × List Sent × Bool :=
  match e.payload with
  | none => (st, [], true)
  | some pl =>
      if e.type = "CREATE_ROOM" then
        let res := createRoom st genCode senderId pl.playerName
        (res.1, res.2, false)
      else if e.type = "JOIN_ROOM" then
        let res := joinRoom st senderId pl.roomCode pl.playerName
        (res.1, res.2, false)
      else if e.type = "START_GAME" then startGame st senderId pl.roomCode r
      else if e.type = "SUBMIT_TEXT" then
        let res := submitText st senderId pl.roomCode pl.text
        (res.1, res.2, false)
      else if e.type = "VOTE" then
        let res := handleVote st senderId pl.roomCode pl.votedPlayerId
        (res.1, res.2, false)
      else if e.type = "NEXT_ROUND" then startNewRound st pl.roomCode r
      else if e.type = "PLAY_SOUND" then
        (st, broadcastToRoom st pl.roomCode "SOUND_PLAYED" none, false)
      else (st, [⟨senderId, "ERROR", "Unknown message type."⟩], false)

/-- The `ws.on("message")` boundary: its try/catch turns any throw out of
`handleMessage` into a single "Invalid message format." ERROR reply to
the sender; the catch does not close the connection.  Every modelled
throw happens before any send, so the sends-so-far list is empty there. -/
def onMessage (st : Sessions) (senderId : String) (e : Envelope)
    (r : Nat) (genCode : String) : Sessions × List Sent :=
  let res := handleMessage st senderId e r genCode
  if res.2.2 then (res.1, res.2.1 ++ [⟨senderId, "ERROR", "Invalid message format."⟩])
  else (res.1, res.2.1)

/-- One externally observable event: an inbound message from a client, a
client disconnect, or a scheduled reading-phase timeout firing. -/
inductive Op where
  | msg (senderId : String) (e : Envelope) (r : Nat) (genCode : String)
  | close (clientId : String)
  | timer (roomCode : String)
deriving DecidableEq, Repr

/-- The single-threaded event step of the server. -/
def step (st : Sessions) : Op → Sessions × List Sent
  | .msg sid e r g => onMessage st sid e r g
  | .close cid => closeConn st cid
  | .timer rc => timerFire st rc

/-- Run a sequence of events from a state. -/
def run (st : Sessions) : List Op → Sessions
  | [] => st
  | op :: ops => run (step st op).1 ops

/-- Convenience constructors for concrete event traces. -/
def pl0 (roomCode playerName text votedPlayerId sound : String) : Payload :=
  ⟨roomCode, playerName, text, votedPlayerId, sound⟩

def createOp (clientId code name : String) : Op :=
  .msg clientId ⟨"CREATE_ROOM", some (pl0 "" name "" "" "")⟩ 0 code

def joinOp (clientId roomCode name : String) : Op :=
  .msg clientId ⟨"JOIN_ROOM", some (pl0 roomCode name "" "" "")⟩ 0 ""

def startOp (clientId roomCode : String) (r : Nat) : Op :=
  .msg clientId ⟨"START_GAME", some (pl0 roomCode "" "" "" "")⟩ r ""

def submitOp (clientId roomCode text : String) : Op :=
  .msg clientId ⟨"SUBMIT_TEXT", some (pl0 roomCode "" text "" "")⟩ 0 ""

def voteOp (clientId roomCode votedPlayerId : String) : Op :=
  .msg clientId ⟨"VOTE", some (pl0 roomCode "" "" votedPlayerId "")⟩ 0 ""

def nextOp (clientId roomCode : String) (r : Nat) : Op :=
  .msg clientId ⟨"NEXT_ROUND", some (pl0 roomCode "" "" "" "")⟩ r ""

/-- The room stored under a code, with a dummy default for total
projection in concrete evaluations. -/
def roomAt (st : Sessions) (roomCode : String) : Session :=
  (objGet st roomCode).getD (initSession "" "" "")

/-- Event trace: client H creates room R1, clients A and B join. -/
def lobby3 : List Op :=
  [createOp "H" "R1" "h", joinOp "A" "R1" "a", joinOp "B" "R1" "b"]

/-- Event trace: the three-player room after the host starts the game
(oracle draw 0 picks H as typer). -/
def typing3 : List Op := lobby3 ++ [startOp "H" "R1" 0]

/-- Event trace: the typer H has submitted text; the room is READING. -/
def reading3 : List Op := typing3 ++ [submitOp "H" "R1" "first"]

/-- Event trace: the reading timeout fired; the room is VOTING. -/
def voting3 : List Op := reading3 ++ [Op.timer "R1"]

/-- Event trace: four players; during VOTING both A and B vote, then C
and B disconnect, leaving their recorded votes behind. -/
def votingLeave4 : List Op :=
  [createOp "H" "R1" "h", joinOp "A" "R1" "a", joinOp "B" "R1" "b", joinOp "C" "R1" "c",
   startOp "H" "R1" 0, submitOp "H" "R1" "x", Op.timer "R1",
   voteOp "A" "R1" "H", voteOp "B" "R1" "H", Op.close "C", Op.close "B"]

/-- One full round with typer H: A votes correctly, B votes wrongly. -/
def c7roundH : List Op :=
  [nextOp "H" "R1" 0, submitOp "H" "R1" "t", Op.timer "R1",
   voteOp "A" "R1" "H", voteOp "B" "R1" "A"]

/-- One full round with typer B: A votes correctly, H votes wrongly. -/
def c7roundB : List Op :=
  [nextOp "H" "R1" 1, submitOp "B" "R1" "t", Op.timer "R1",
   voteOp "A" "R1" "B", voteOp "H" "R1" "A"]

/-- One full round with typer A: both voters vote wrongly. -/
def c7roundA : List Op :=
  [nextOp "H" "R1" 0, submitOp "A" "R1" "t", Op.timer "R1",
   voteOp "H" "R1" "B", voteOp "B" "R1" "H"]

/-- One full rotation cycle: typers H, B, A in order. -/
def c7cycle : List Op := c7roundH ++ c7roundB ++ c7roundA

/-- Fifteen rounds in a three-player room.  A votes correctly in every
round where A is not the typer (10 rounds), reaching score 10 at round
14, where the game correctly ends; the sixteenth round is then started
(NEXT_ROUND is not gated) and every voter votes wrongly. -/
def c7trace : List Op :=
  [createOp "H" "R1" "h", joinOp "A" "R1" "a", joinOp "B" "R1" "b",
   startOp "H" "R1" 0, submitOp "H" "R1" "t", Op.timer "R1",
   voteOp "A" "R1" "H", voteOp "B" "R1" "A"]
  ++ c7roundB ++ c7roundA ++ c7cycle ++ c7cycle ++ c7cycle ++ c7cycle

/-- Event trace: the game starts with typer H, then H disconnects. -/
def c9trace : List Op := typing3 ++ [Op.close "H"]

/-- A concrete three-player lobby session for witness instances. -/
def demoSession : Session :=
  ⟨"R1", "H", [⟨"H", "h", 0⟩, ⟨"A", "a", 0⟩, ⟨"B", "b", 0⟩], "LOBBY", ⟨none, [], "", []⟩⟩

/-- The same room in the VOTING phase with typer H and one recorded
vote, for witness instances. -/
def demoVoting : Session :=
  ⟨"R1", "H", [⟨"H", "h", 0⟩, ⟨"A", "a", 0⟩, ⟨"B", "b", 0⟩], "VOTING",
   ⟨some "H", ["H"], "x", [("A", "H")]⟩⟩

/-- Occurrence count of a string in a list. -/
def cnt (a : String) : List String → Nat
  | [] => 0
  | b :: l => (if b = a then 1 else 0) + cnt a l

/-- The sequence of typers chosen by iterating `startNewRound` on one
session with the given oracle draws (the player set never changes across
the iteration, matching a room whose membership is fixed). -/
def roundTypers (s : Session) : List Nat → List String
  | [] => []
  | r :: rs =>
      let s' := (startNewRoundS s r).1
      s'.rounds.currentTyperId.getD "" :: roundTypers s' rs

/-- A property holding of every live room of the server state. -/
def EveryRoom (P : Session → Prop) (st : Sessions) : Prop :=
  ∀ e ∈ st, P e.2

/-- A client is never removed: the trace has no disconnect events. -/
def isCloseOp : Op → Bool
  | .close _ => true
  | _ => false

/-- The current typer, when set, is a present player. -/
def TyperPresent (s : Session) : Prop :=
  ∀ t, s.rounds.currentTyperId = some t → t ∈ s.players.map Player.clientId

/-- Proof obligations making a per-room property an inductive invariant of
every message- and timer-driven session mutation of the server. -/
structure StepPres (P : Session → Prop) : Prop where
  hinit : ∀ rc cid pn, P (initSession rc cid pn)
  hjoin : ∀ s cid pn, P s → s.players.length < 8 → P (joinSession s cid pn)
  htyping : ∀ s, P s → P (typingSession s)
  hround : ∀ s r, P s → P (startNewRoundS s r).1
  hsubmit : ∀ s t, P s → P (submitSession s t)
  hvote : ∀ s cid v, P s → P (voteSession s cid v)
  hcalc : ∀ s, P s → P (calcSession s)
  hvoting : ∀ s, P s → P (votingSession s)

theorem objGet_objSet_self {α : Type} :
    ∀ (m : List (String × α)) (k : String) (v : α), objGet (objSet m k v) k = some v
  | [], k, v => by simp [objSet, objGet]
  | (k', v') :: rest, k, v => by
      by_cases h : k' = k
      · simp [objSet, objGet, h]
      · simp [objSet, objGet, h, objGet_objSet_self rest k v]

theorem objGet_objSet_ne {α : Type} :
    ∀ (m : List (String × α)) (k k2 : String) (v : α), k2 ≠ k →
      objGet (objSet m k v) k2 = objGet m k2
  | [], k, k2, v, h => by simp [objSet, objGet, Ne.symm h]
  | (k', v') :: rest, k, k2, v, h => by
      by_cases hk : k' = k
      · subst hk
        simp [objSet, objGet, Ne.symm h]
      · simp [objSet, objGet, hk, objGet_objSet_ne rest k k2 v h]

theorem mem_objSet {α : Type} :
    ∀ {m : List (String × α)} {k : String} {v : α} {x : String × α},
      x ∈ objSet m k v → x = (k, v) ∨ x ∈ m
  | [], k, v, x, h => by simpa [objSet] using h
  | (k', v') :: rest, k, v, x, h => by
      by_cases hk : k' = k
      · simp only [objSet, if_pos hk, List.mem_cons] at h
        rcases h with h | h
        · exact Or.inl h
        · exact Or.inr (List.mem_cons_of_mem _ h)
      · simp only [objSet, if_neg hk, List.mem_cons] at h
        rcases h with h | h
        · exact Or.inr (by simp [h])
        · rcases mem_objSet h with h' | h'
          · exact Or.inl h'
          · exact Or.inr (List.mem_cons_of_mem _ h')

theorem objGet_mem {α : Type} :
    ∀ {m : List (String × α)} {k : String} {v : α}, objGet m k = some v → (k, v) ∈ m
  | [], k, v, h => by simp [objGet] at h
  | (k', v') :: rest, k, v, h => by
      by_cases hk : k' = k
      · subst hk
        have hv : v' = v := by simpa [objGet] using h
        subst hv
        exact List.mem_cons_self _ _
      · simp only [objGet, if_neg hk] at h
        exact List.mem_cons_of_mem _ (objGet_mem h)

theorem objSet_keys {α : Type} :
    ∀ (m : List (String × α)) (k : String) (v : α),
      (objSet m k v).map Prod.fst =
        if k ∈ m.map Prod.fst then m.map Prod.fst else m.map Prod.fst ++ [k]
  | [], k, v => by simp [objSet]
  | (k', v') :: rest, k, v => by
      by_cases hk : k' = k
      · simp [objSet, hk]
      · have hne : ¬ k = k' := fun h => hk h.symm
        by_cases hmem : k ∈ rest.map Prod.fst <;>
          simp [objSet, hk, hne, objSet_keys rest k v, hmem]

theorem objSet_length {α : Type} (m : List (String × α)) (k : String) (v : α) :
    (objSet m k v).length =
      if k ∈ m.map Prod.fst then m.length else m.length + 1 := by
  have h1 : (objSet m k v).length = ((objSet m k v).map Prod.fst).length := by
    simp
  have h2 : m.length = (m.map Prod.fst).length := by simp
  rw [h1, objSet_keys]
  split <;> simp [← h2]

theorem objSet_keys_nodup {α : Type} {m : List (String × α)} {k : String} {v : α}
    (h : (m.map Prod.fst).Nodup) : ((objSet m k v).map Prod.fst).Nodup := by
  rw [objSet_keys]
  split
  · exact h
  · next hmem =>
      simp [List.nodup_append, h, hmem]

theorem everyRoom_objSet {P : Session → Prop} {st : Sessions} {k : String} {s : Session}
    (h : EveryRoom P st) (hs : P s) : EveryRoom P (objSet st k s) := by
  intro e he
  rcases mem_objSet he with rfl | hmem
  · exact hs
  · exact h e hmem

theorem everyRoom_objGet {P : Session → Prop} {st : Sessions} {k : String} {s : Session}
    (h : EveryRoom P st) (hg : objGet st k = some s) : P s :=
  h (k, s) (objGet_mem hg)

theorem poolOf_reset (s : Session) : poolOf (resetRoundData s) = poolOf s := rfl

theorem poolOf_spec (s : Session) :
    ((∀ pl ∈ s.players, pl.clientId ∈ s.rounds.playersWhoHaveTyped) ∧
       poolOf s = ([], s.players)) ∨
    ((poolOf s).1 = s.rounds.playersWhoHaveTyped ∧
     (poolOf s).2 =
       s.players.filter (fun p => decide (p.clientId ∉ s.rounds.playersWhoHaveTyped))) := by
  by_cases h0 : (s.players.filter
      (fun p => decide (p.clientId ∉ s.rounds.playersWhoHaveTyped))).isEmpty = true
  · left
    constructor
    · intro pl hpl
      have hnil : s.players.filter
          (fun p => decide (p.clientId ∉ s.rounds.playersWhoHaveTyped)) = [] :=
        List.isEmpty_iff.mp h0
      have := List.filter_eq_nil_iff.mp hnil pl hpl
      simpa using this
    · simp only [poolOf]
      rw [if_pos h0]
  · right
    simp only [poolOf]
    rw [if_neg h0]
    exact ⟨rfl, rfl⟩

theorem poolOf_sub (s : Session) : ∀ p ∈ (poolOf s).2, p ∈ s.players := by
  intro p hp
  simp only [poolOf] at hp
  split at hp
  · exact hp
  · exact List.mem_of_mem_filter hp

theorem poolOf_ne (s : Session) (hne : s.players ≠ []) : (poolOf s).2 ≠ [] := by
  simp only [poolOf]
  by_cases h0 : (s.players.filter
      (fun p => decide (p.clientId ∉ s.rounds.playersWhoHaveTyped))).isEmpty = true
  · rw [if_pos h0]
    exact hne
  · rw [if_neg h0]
    show s.players.filter (fun p => decide (p.clientId ∉ s.rounds.playersWhoHaveTyped)) ≠ []
    intro hnil
    exact h0 (by rw [hnil]; rfl)

theorem players_startNewRoundS (s : Session) (r : Nat) :
    (startNewRoundS s r).1.players = s.players := by
  simp only [startNewRoundS]
  split <;> rfl

theorem votes_startNewRoundS (s : Session) (r : Nat) :
    (startNewRoundS s r).1.rounds.votes = [] := by
  simp only [startNewRoundS]
  split <;> rfl

theorem onMessage_fst (st : Sessions) (sid : String) (e : Envelope) (r : Nat) (g : String) :
    (onMessage st sid e r g).1 = (handleMessage st sid e r g).1 := by
  simp only [onMessage]
  split <;> rfl

theorem everyRoom_createRoom {P : Session → Prop}
    (hinit : ∀ rc cid pn, P (initSession rc cid pn))
    {st : Sessions} (h : EveryRoom P st) (g cid pn : String) :
    EveryRoom P (createRoom st g cid pn).1 := by
  by_cases hc : (objGet st g).isSome = true
  · simpa [createRoom, hc] using h
  · simp only [createRoom, hc, if_false]
    exact everyRoom_objSet h (hinit g cid pn)

theorem everyRoom_joinRoom {P : Session → Prop}
    (hjoin : ∀ s cid pn, P s → s.players.length < 8 → P (joinSession s cid pn))
    {st : Sessions} (h : EveryRoom P st) (cid rc pn : String) :
    EveryRoom P (joinRoom st cid rc pn).1 := by
  cases hg : objGet st rc with
  | none => simpa [joinRoom, hg] using h
  | some s =>
      by_cases hlen : 8 ≤ s.players.length
      · simpa [joinRoom, hg, hlen] using h
      · simp only [joinRoom, hg, if_neg hlen]
        exact everyRoom_objSet h
          (hjoin s cid pn (everyRoom_objGet h hg) (by omega))

theorem everyRoom_startNewRound {P : Session → Prop}
    (hround : ∀ s r, P s → P (startNewRoundS s r).1)
    {st : Sessions} (h : EveryRoom P st) (rc : String) (r : Nat) :
    EveryRoom P (startNewRound st rc r).1 := by
  cases hg : objGet st rc with
  | none => simpa [startNewRound, hg] using h
  | some s =>
      simp only [startNewRound, hg]
      exact everyRoom_objSet h (hround s r (everyRoom_objGet h hg))

theorem everyRoom_startGame {P : Session → Prop}
    (htyping : ∀ s, P s → P (typingSession s))
    (hround : ∀ s r, P s → P (startNewRoundS s r).1)
    {st : Sessions} (h : EveryRoom P st) (cid rc : String) (r : Nat) :
    EveryRoom P (startGame st cid rc r).1 := by
  cases hg : objGet st rc with
  | none => simpa [startGame, hg] using h
  | some s =>
      simp only [startGame, hg]
      split
      · exact h
      · split
        · split
          · exact h
          · exact h
        · exact everyRoom_startNewRound hround
            (everyRoom_objSet h (htyping s (everyRoom_objGet h hg))) rc r

theorem everyRoom_submitText {P : Session → Prop}
    (hsubmit : ∀ s t, P s → P (submitSession s t))
    {st : Sessions} (h : EveryRoom P st) (cid rc tx : String) :
    EveryRoom P (submitText st cid rc tx).1 := by
  cases hg : objGet st rc with
  | none => simpa [submitText, hg] using h
  | some s =>
      simp only [submitText, hg]
      split
      · exact h
      · exact everyRoom_objSet h (hsubmit s tx (everyRoom_objGet h hg))

theorem everyRoom_calculateScores {P : Session → Prop}
    (hcalc : ∀ s, P s → P (calcSession s))
    {st : Sessions} (h : EveryRoom P st) (rc : String) :
    EveryRoom P (calculateScores st rc).1 := by
  cases hg : objGet st rc with
  | none => simpa [calculateScores, hg] using h
  | some s =>
      simp only [calculateScores, hg]
      exact everyRoom_objSet h (hcalc s (everyRoom_objGet h hg))

theorem everyRoom_handleVote {P : Session → Prop}
    (hvote : ∀ s cid v, P s → P (voteSession s cid v))
    (hcalc : ∀ s, P s → P (calcSession s))
    {st : Sessions} (h : EveryRoom P st) (cid rc vp : String) :
    EveryRoom P (handleVote st cid rc vp).1 := by
  cases hg : objGet st rc with
  | none => simpa [handleVote, hg] using h
  | some s =>
      have h1 : EveryRoom P (objSet st rc (voteSession s cid vp)) :=
        everyRoom_objSet h (hvote s cid vp (everyRoom_objGet h hg))
      simp only [handleVote, hg]
      split
      · exact h
      · split
        · exact everyRoom_calculateScores hcalc h1 rc
        · exact h1

theorem everyRoom_timerFire {P : Session → Prop}
    (hvoting : ∀ s, P s → P (votingSession s))
    {st : Sessions} (h : EveryRoom P st) (rc : String) :
    EveryRoom P (timerFire st rc).1 := by
  cases hg : objGet st rc with
  | none => simpa [timerFire, hg] using h
  | some s =>
      simp only [timerFire, hg]
      exact everyRoom_objSet h (hvoting s (everyRoom_objGet h hg))

theorem everyRoom_closeConn {P : Session → Prop}
    (hclose : ∀ s cid, P s → P (closeSession s cid)) :
    ∀ (st : Sessions) (cid : String), EveryRoom P st → EveryRoom P (closeConn st cid).1
  | [], _, h => by simpa [closeConn] using h
  | (code, s) :: rest, cid, h => by
      have hs : P s := h (code, s) (List.mem_cons_self _ _)
      have hrest : EveryRoom P rest := fun e he => h e (List.mem_cons_of_mem _ he)
      simp only [closeConn]
      split
      · split
        · exact hrest
        · intro e he
          rcases List.mem_cons.mp he with rfl | hmem
          · exact hclose s cid hs
          · exact hrest e hmem
      · intro e he
        rcases List.mem_cons.mp he with rfl | hmem
        · exact hs
        · exact everyRoom_closeConn hclose rest cid hrest e hmem

theorem everyRoom_handleMessage {P : Session → Prop} (hp : StepPres P)
    {st : Sessions} (h : EveryRoom P st) (sid : String) (e : Envelope)
    (r : Nat) (g : String) :
    EveryRoom P (handleMessage st sid e r g).1 := by
  cases hpl : e.payload with
  | none => simpa [handleMessage, hpl] using h
  | some pl =>
      simp only [handleMessage, hpl]
      split
      · exact everyRoom_createRoom hp.hinit h g sid pl.playerName
      · split
        · exact everyRoom_joinRoom hp.hjoin h sid pl.roomCode pl.playerName
        · split
          · exact everyRoom_startGame hp.htyping hp.hround h sid pl.roomCode r
          · split
            · exact everyRoom_submitText hp.hsubmit h sid pl.roomCode pl.text
            · split
              · exact everyRoom_handleVote hp.hvote hp.hcalc h sid pl.roomCode pl.votedPlayerId
              · split
                · exact everyRoom_startNewRound hp.hround h pl.roomCode r
                · split
                  · exact h
                  · exact h

theorem everyRoom_step {P : Session → Prop} (hp : StepPres P)
    (hclose : ∀ s cid, P s → P (closeSession s cid))
    {st : Sessions} (h : EveryRoom P st) (op : Op) :
    EveryRoom P (step st op).1 := by
  cases op with
  | msg sid e r g =>
      rw [step, onMessage_fst]
      exact everyRoom_handleMessage hp h sid e r g
  | close cid => exact everyRoom_closeConn hclose st cid h
  | timer rc => exact everyRoom_timerFire hp.hvoting h rc

theorem everyRoom_run {P : Session → Prop} (hp : StepPres P)
    (hclose : ∀ s cid, P s → P (closeSession s cid)) :
    ∀ (ops : List Op) (st : Sessions), EveryRoom P st → EveryRoom P (run st ops)
  | [], _, h => h
  | op :: ops, st, h =>
      everyRoom_run hp hclose ops (step st op).1 (everyRoom_step hp hclose h op)

theorem everyRoom_run_of_noclose {P : Session → Prop} (hp : StepPres P) :
    ∀ (ops : List Op), (∀ op ∈ ops, isCloseOp op = false) →
      ∀ st : Sessions, EveryRoom P st → EveryRoom P (run st ops)
  | [], _, _, h => h
  | op :: ops, hnc, st, h => by
      have h' : EveryRoom P (step st op).1 := by
        cases op with
        | msg sid e r g =>
            rw [step, onMessage_fst]
            exact everyRoom_handleMessage hp h sid e r g
        | close cid =>
            exact absurd (hnc _ (List.mem_cons_self _ _)) (by simp [isCloseOp])
        | timer rc => exact everyRoom_timerFire hp.hvoting h rc
      exact everyRoom_run_of_noclose hp ops
        (fun o ho => hnc o (List.mem_cons_of_mem _ ho)) (step st op).1 h'

theorem typer_startNewRoundS (s : Session) (r : Nat) :
    (startNewRoundS s r).1.rounds.currentTyperId = s.rounds.currentTyperId ∨
      ∃ p ∈ s.players, (startNewRoundS s r).1.rounds.currentTyperId = some p.clientId := by
  simp only [startNewRoundS]
  split
  · exact Or.inl rfl
  · next p heq =>
      exact Or.inr ⟨p, poolOf_sub _ p (List.get?_mem heq), rfl⟩

theorem objSet_objSet {α : Type} :
    ∀ (m : List (String × α)) (k : String) (a b : α),
      objSet (objSet m k a) k b = objSet m k b
  | [], k, a, b => by simp [objSet]
  | (k', v') :: rest, k, a, b => by
      by_cases hk : k' = k
      · simp [objSet, hk]
      · simp [objSet, hk, objSet_objSet rest k a b]

theorem gameState_startNewRoundS (s : Session) (r : Nat) :
    (startNewRoundS s r).1.gameState = "TYPING" := by
  simp only [startNewRoundS]
  split <;> rfl

theorem text_startNewRoundS (s : Session) (r : Nat) :
    (startNewRoundS s r).1.rounds.submittedText = "" := by
  simp only [startNewRoundS]
  split <;> rfl

/-- Characterization of a round start on a non-empty room: it cannot
throw, it picks a typer from the pool of players not yet recorded in
`playersWhoHaveTyped` — resetting that list first exactly when every
present player is already recorded — and appends the pick to the list. -/
theorem startNewRoundS_typed (s : Session) (r : Nat) (hne : s.players ≠ []) :
    (startNewRoundS s r).2 = false ∧
    ∃ t, (startNewRoundS s r).1.rounds.currentTyperId = some t ∧
      t ∈ s.players.map Player.clientId ∧
      ((∀ pl ∈ s.players, pl.clientId ∈ s.rounds.playersWhoHaveTyped) ∧
         (startNewRoundS s r).1.rounds.playersWhoHaveTyped = [t] ∨
       t ∉ s.rounds.playersWhoHaveTyped ∧
         (startNewRoundS s r).1.rounds.playersWhoHaveTyped =
           s.rounds.playersWhoHaveTyped ++ [t]) := by
  have hpne : (poolOf (resetRoundData s)).2 ≠ [] := poolOf_ne _ hne
  have hlen : 0 < (poolOf (resetRoundData s)).2.length := List.length_pos.mpr hpne
  obtain ⟨p, hp⟩ : ∃ p, (poolOf (resetRoundData s)).2.get?
      (r % (poolOf (resetRoundData s)).2.length) = some p :=
    ⟨_, List.get?_eq_get (Nat.mod_lt _ hlen)⟩
  simp only [startNewRoundS, hp]
  refine ⟨trivial, p.clientId, rfl,
    List.mem_map_of_mem _ (poolOf_sub _ p (List.get?_mem hp)), ?_⟩
  rcases poolOf_spec (resetRoundData s) with ⟨hcov, hpool⟩ | ⟨h1, h2⟩
  · left
    exact ⟨hcov, by rw [hpool]; rfl⟩
  · right
    constructor
    · have hmem : p ∈ (resetRoundData s).players.filter
          (fun q => decide (q.clientId ∉ (resetRoundData s).rounds.playersWhoHaveTyped)) := by
        rw [← h2]
        exact List.get?_mem hp
      have := List.of_mem_filter hmem
      simpa using this
    · rw [h1]; rfl

/-- Rotation balance: along any iterated sequence of round starts on a
fixed player set, the pick counts of two players differ by at most one,
where a pending membership in `playersWhoHaveTyped` counts as one pick. -/
theorem roundTypers_balanced :
    ∀ (rs : List Nat) (s : Session), s.players ≠ [] →
      ∀ p q, p ∈ s.players.map Player.clientId → q ∈ s.players.map Player.clientId →
        cnt p (roundTypers s rs) + (if p ∈ s.rounds.playersWhoHaveTyped then 1 else 0) ≤
          cnt q (roundTypers s rs) + (if q ∈ s.rounds.playersWhoHaveTyped then 1 else 0) + 1
  | [], s, hne, p, q, hp, hq => by
      simp only [roundTypers, cnt]
      split <;> split <;> omega
  | r :: rs, s, hne, p, q, hp, hq => by
      obtain ⟨-, t, htyper, htmem, hcase⟩ := startNewRoundS_typed s r hne
      have hne' : (startNewRoundS s r).1.players ≠ [] := by
        rw [players_startNewRoundS]
        exact hne
      have hp' : p ∈ (startNewRoundS s r).1.players.map Player.clientId := by
        rw [players_startNewRoundS]
        exact hp
      have hq' : q ∈ (startNewRoundS s r).1.players.map Player.clientId := by
        rw [players_startNewRoundS]
        exact hq
      have IH := roundTypers_balanced rs (startNewRoundS s r).1 hne' p q hp' hq'
      simp only [roundTypers, htyper, Option.getD_some, cnt]
      have e1 : (if t = p then (1 : Nat) else 0) = (if p = t then 1 else 0) :=
        if_congr eq_comm rfl rfl
      have e2 : (if t = q then (1 : Nat) else 0) = (if q = t then 1 else 0) :=
        if_congr eq_comm rfl rfl
      rw [e1, e2]
      rcases hcase with ⟨hcov, hW'⟩ | ⟨hnew, hW'⟩
      · have hpW : p ∈ s.rounds.playersWhoHaveTyped := by
          obtain ⟨pl, hpl, rfl⟩ := List.mem_map.mp hp
          exact hcov pl hpl
        have hqW : q ∈ s.rounds.playersWhoHaveTyped := by
          obtain ⟨pl, hpl, rfl⟩ := List.mem_map.mp hq
          exact hcov pl hpl
        rw [hW'] at IH
        simp only [List.mem_singleton] at IH
        rw [if_pos hpW, if_pos hqW]
        omega
      · rw [hW'] at IH
        simp only [List.mem_append, List.mem_singleton] at IH
        have hsum : ∀ x : String,
            (if x ∈ s.rounds.playersWhoHaveTyped ∨ x = t then (1 : Nat) else 0) =
              (if x ∈ s.rounds.playersWhoHaveTyped then 1 else 0) +
                (if x = t then 1 else 0) := by
          intro x
          by_cases h1 : x = t
          · subst h1
            simp [hnew]
          · simp [h1]
        rw [hsum p, hsum q] at IH
        omega

/-- Broadcasting without exclusion reaches every player of the room. -/
theorem broadcast_none (st : Sessions) (rc mt : String) (s : Session)
    (hg : objGet st rc = some s) :
    broadcastToRoom st rc mt none = s.players.map (fun p => ⟨p.clientId, mt, ""⟩) := by
  simp [broadcastToRoom, hg]

/-- Broadcasting with an exclusion reaches exactly the players with a
different clientId. -/
theorem broadcast_some (st : Sessions) (rc mt cid : String) (s : Session)
    (hg : objGet st rc = some s) :
    broadcastToRoom st rc mt (some cid) =
      (s.players.filter (fun p => decide (p.clientId ≠ cid))).map
        (fun p => ⟨p.clientId, mt, ""⟩) := by
  simp only [broadcastToRoom, hg]
  congr 1
  apply List.filter_congr
  intro p _
  simp [eq_comm]

theorem step_createOp (st : Sessions) (cid code name : String) :
    step st (createOp cid code name) = createRoom st code cid name := by
  simp [step, createOp, onMessage, handleMessage, pl0]

theorem step_joinOp (st : Sessions) (cid rc pn : String) :
    step st (joinOp cid rc pn) = joinRoom st cid rc pn := by
  simp [step, joinOp, onMessage, handleMessage, pl0]

theorem step_voteOp (st : Sessions) (cid rc vp : String) :
    step st (voteOp cid rc vp) = handleVote st cid rc vp := by
  simp [step, voteOp, onMessage, handleMessage, pl0]

theorem step_submitOp (st : Sessions) (cid rc tx : String) :
    step st (submitOp cid rc tx) = submitText st cid rc tx := by
  simp [step, submitOp, onMessage, handleMessage, pl0]

theorem clientId_applyVote (t : Option String) (v : List (String × String)) (p : Player) :
    (applyVote t v p).clientId = p.clientId := by
  unfold applyVote
  split <;> rfl

theorem ids_calcSession (s : Session) :
    (calcSession s).players.map Player.clientId = s.players.map Player.clientId := by
  simp only [calcSession, List.map_map]
  congr 1
  funext p
  simp [Function.comp, clientId_applyVote]

/-- Room membership stays within the capacity of 8 under every session
mutation. -/
theorem stepPres_len : StepPres (fun s => s.players.length ≤ 8) where
  hinit := by intro rc cid pn; simp [initSession]
  hjoin := by
    intro s cid pn _ hlt
    simp only [joinSession, List.length_append, List.length_cons, List.length_nil]
    omega
  htyping := by intro s h; simpa [typingSession] using h
  hround := by intro s r h; simpa [players_startNewRoundS] using h
  hsubmit := by intro s t h; simpa [submitSession] using h
  hvote := by intro s cid v h; simpa [voteSession] using h
  hcalc := by intro s h; simpa [calcSession] using h
  hvoting := by intro s h; simpa [votingSession] using h

theorem closePres_len (s : Session) (cid : String)
    (h : s.players.length ≤ 8) : (closeSession s cid).players.length ≤ 8 :=
  le_trans (List.Sublist.length_le (List.eraseP_sublist _)) h

/-- The votes object's keys stay pairwise distinct under every session
mutation. -/
theorem stepPres_votesNodup : StepPres (fun s => (s.rounds.votes.map Prod.fst).Nodup) where
  hinit := by intro rc cid pn; simp [initSession]
  hjoin := by intro s cid pn h _; simpa [joinSession] using h
  htyping := by intro s h; simpa [typingSession] using h
  hround := by intro s r h; simp [votes_startNewRoundS]
  hsubmit := by intro s t h; simpa [submitSession] using h
  hvote := by intro s cid v h; simpa [voteSession] using objSet_keys_nodup h
  hcalc := by intro s h; simpa [calcSession] using h
  hvoting := by intro s h; simpa [votingSession] using h

theorem closePres_votesNodup (s : Session) (cid : String)
    (h : (s.rounds.votes.map Prod.fst).Nodup) :
    ((closeSession s cid).rounds.votes.map Prod.fst).Nodup := by
  simpa [closeSession] using h

theorem rounds_calcSession (s : Session) : (calcSession s).rounds = s.rounds := rfl

/-- In the reachable states where `calculateScores` runs, the typer id is
a real (non-empty) client id, and the truthiness guard collapses: a
player's vote hits iff it equals the typer id. -/
theorem voteHit_eq (t : String) (ht : t ≠ "") (votes : List (String × String)) (p : Player) :
    voteHit (some t) votes p = decide (objGet votes p.clientId = some t) := by
  unfold voteHit
  cases h : objGet votes p.clientId with
  | none => simp
  | some v =>
      by_cases hv : v = t
      · subst hv
        simp [ht]
      · simp [hv, Ne.symm hv]

theorem applyVote_eq (t : String) (ht : t ≠ "") (votes : List (String × String)) (p : Player) :
    applyVote (some t) votes p =
      if objGet votes p.clientId = some t then { p with score := p.score + 1 } else p := by
  unfold applyVote
  rw [voteHit_eq t ht]
  by_cases h : objGet votes p.clientId = some t <;> simp [h]

theorem joinRoom_notFound (st : Sessions) (cid rc pn : String)
    (hg : objGet st rc = none) :
    joinRoom st cid rc pn = (st, [⟨cid, "ERROR", "Room not found."⟩]) := by
  simp [joinRoom, hg]

theorem joinRoom_full (st : Sessions) (cid rc pn : String) (s : Session)
    (hg : objGet st rc = some s) (h8 : 8 ≤ s.players.length) :
    joinRoom st cid rc pn = (st, [⟨cid, "ERROR", "Room is full."⟩]) := by
  simp [joinRoom, hg, h8]

theorem joinRoom_ok (st : Sessions) (cid rc pn : String) (s : Session)
    (hg : objGet st rc = some s) (hlt : s.players.length < 8) :
    joinRoom st cid rc pn =
      (objSet st rc (joinSession s cid pn),
       ⟨cid, "JOINED_ROOM", ""⟩ ::
         (s.players.filter (fun p => decide (p.clientId ≠ cid))).map
           (fun p => ⟨p.clientId, "UPDATE_GAME_STATE", ""⟩)) := by
  have h8 : ¬ 8 ≤ s.players.length := by omega
  simp only [joinRoom, hg, if_neg h8]
  rw [broadcast_some _ _ _ _ _ (objGet_objSet_self st rc _)]
  simp [joinSession, List.filter_append]

/-- Full behavior of `startNewRound` on an existing non-empty room. -/
theorem startNewRound_spec (st : Sessions) (rc : String) (r : Nat) (s : Session)
    (hg : objGet st rc = some s) (hne : s.players ≠ []) :
    ∃ s', startNewRound st rc r =
        (objSet st rc s', s'.players.map (fun p => ⟨p.clientId, "NEW_ROUND", ""⟩), false) ∧
      s'.gameState = "TYPING" ∧ s'.players = s.players ∧
      s'.rounds.submittedText = "" ∧ s'.rounds.votes = [] ∧
      ∃ p ∈ s.players, s'.rounds.currentTyperId = some p.clientId := by
  obtain ⟨hthrew, t, htyper, htmem, -⟩ := startNewRoundS_typed s r hne
  refine ⟨(startNewRoundS s r).1, ?_, gameState_startNewRoundS s r,
    players_startNewRoundS s r, text_startNewRoundS s r, votes_startNewRoundS s r, ?_⟩
  · simp only [startNewRound, hg, hthrew, Bool.false_eq_true, if_false]
    rw [broadcast_none _ _ _ _ (objGet_objSet_self st rc (startNewRoundS s r).1)]
  · obtain ⟨pl, hplmem, hpleq⟩ := List.mem_map.mp htmem
    exact ⟨pl, hplmem, by rw [htyper, hpleq]⟩

/-- The state reached by `handleVote` in the VOTING phase always carries
the freshly recorded vote, whether or not scores are then calculated. -/
theorem handleVote_votes (st : Sessions) (cid rc vp : String) (s : Session)
    (hg : objGet st rc = some s) (hph : s.gameState = "VOTING") :
    ∃ s', objGet (handleVote st cid rc vp).1 rc = some s' ∧
      s'.rounds.votes = objSet s.rounds.votes cid vp ∧
      s'.players.map Player.clientId = s.players.map Player.clientId := by
  have hnn : ¬ s.gameState ≠ "VOTING" := fun hh => hh hph
  simp only [handleVote, hg, if_neg hnn]
  split
  · refine ⟨calcSession (voteSession s cid vp), ?_, rfl, ?_⟩
    · simp only [calculateScores, objGet_objSet_self]
    · rw [ids_calcSession]
      rfl
  · exact ⟨voteSession s cid vp, objGet_objSet_self st rc _, rfl, rfl⟩

/-- As long as no client disconnects, every session mutation keeps the
current typer a present player. -/
theorem stepPres_typer : StepPres TyperPresent where
  hinit := by intro rc cid pn t ht; simp [initSession] at ht
  hjoin := by
    intro s cid pn h _ t ht
    simp only [joinSession, List.map_append]
    exact List.mem_append_left _ (h t ht)
  htyping := by intro s h t ht; exact h t ht
  hround := by
    intro s r h t ht
    rcases typer_startNewRoundS s r with heq | ⟨p, hp, heq⟩
    · rw [players_startNewRoundS]
      exact h t (heq ▸ ht)
    · rw [players_startNewRoundS]
      rw [heq] at ht
      cases ht
      exact List.mem_map_of_mem _ hp
  hsubmit := by intro s tx h t ht; exact h t ht
  hvote := by intro s cid v h t ht; exact h t ht
  hcalc := by
    intro s h t ht
    rw [ids_calcSession]
    exact h t ht
  hvoting := by intro s h t ht; exact h t ht

theorem run_cons (st : Sessions) (op : Op) (ops : List Op) :
    run st (op :: ops) = run (step st op).1 ops := rfl

/-- Membership after a run of consecutive join attempts on one room:
each attempt below the capacity adds exactly one member, each attempt at
capacity is refused, so the count is clamped at 8. -/
theorem run_joins_min :
    ∀ (js : List (String × String)) (st : Sessions) (rc : String) (s : Session),
      objGet st rc = some s → s.players.length ≤ 8 →
      ∃ s', objGet (run st (js.map (fun j => joinOp j.1 rc j.2))) rc = some s' ∧
        s'.players.length = min (s.players.length + js.length) 8
  | [], st, rc, s, hg, h8 => ⟨s, hg, by simp; omega⟩
  | j :: js, st, rc, s, hg, h8 => by
      rw [List.map_cons, run_cons, step_joinOp]
      by_cases hlt : s.players.length < 8
      · have hj1 : (joinRoom st j.1 rc j.2).1 = objSet st rc (joinSession s j.1 j.2) := by
          rw [joinRoom_ok st j.1 rc j.2 s hg hlt]
        rw [hj1]
        obtain ⟨s', h1, h2⟩ := run_joins_min js (objSet st rc (joinSession s j.1 j.2)) rc
          (joinSession s j.1 j.2) (objGet_objSet_self st rc _)
          (by simp only [joinSession, List.length_append, List.length_cons,
                List.length_nil]; omega)
        refine ⟨s', h1, ?_⟩
        rw [h2]
        simp only [joinSession, List.length_append, List.length_cons, List.length_nil]
        omega
      · have h8' : 8 ≤ s.players.length := by omega
        have hj1 : (joinRoom st j.1 rc j.2).1 = st := by
          rw [joinRoom_full st j.1 rc j.2 s hg h8']
        rw [hj1]
        obtain ⟨s', h1, h2⟩ := run_joins_min js st rc s hg h8
        refine ⟨s', h1, ?_⟩
        rw [h2]
        simp only [List.length_cons]
        omega

/-- C1, counterexample.  In the reachable room R1 — phase LOBBY, host H,
players H, A, B — a START_GAME request from the non-host A produces no
outbound message at all, in particular no NotHost error to the
requester, and leaves the whole server state unchanged.  This refutes
the claim's assertion that a non-host requester receives a NotHost
error. -/
theorem C1_counterexample :
    (roomAt (run [] lobby3) "R1").gameState = "LOBBY" ∧
    (roomAt (run [] lobby3) "R1").hostId = "H" ∧
    (step (run [] lobby3) (startOp "A" "R1" 0)).2 = [] ∧
    (step (run [] lobby3) (startOp "A" "R1" 0)).1 = run [] lobby3 := by
  decide

/-- C1, amended.  startGame is gated only on the requester being the
host and on the player count — the phase is never checked.  An unknown
room or a non-host requester is silently ignored: no message is sent and
the state is unchanged.  A host of a room with fewer than 3 players gets
the insufficient-players error, reported to the requester only; a host
of a room with at least 3 players starts a round from any phase. -/
theorem C1_startGame_gating :
    (∀ st cid rc r, objGet st rc = none → startGame st cid rc r = (st, [], false)) ∧
    (∀ st cid rc r s, objGet st rc = some s → s.hostId ≠ cid →
      startGame st cid rc r = (st, [], false)) ∧
    (∀ st cid rc r s, objGet st rc = some s → s.hostId = cid →
      s.players.length < 3 → (∃ pl ∈ s.players, pl.clientId = cid) →
      startGame st cid rc r =
        (st, [⟨cid, "ERROR", "Need at least 3 players to start."⟩], false)) ∧
    (∀ st cid rc r s, objGet st rc = some s → s.hostId = cid →
      3 ≤ s.players.length →
      ∃ s', (startGame st cid rc r).1 = objSet st rc s' ∧
        s'.gameState = "TYPING" ∧ s'.players = s.players ∧
        ∃ p ∈ s.players, s'.rounds.currentTyperId = some p.clientId) := by
  refine ⟨?_, ?_, ?_, ?_⟩
  · intro st cid rc r hg
    simp [startGame, hg]
  · intro st cid rc r s hg hne
    simp only [startGame, hg, if_pos hne]
  · intro st cid rc r s hg heq hlt hmem
    have hnn : ¬ s.hostId ≠ cid := fun hh => hh heq
    have hfind : (s.players.find? (fun p => p.clientId == cid)).isSome = true := by
      rw [List.find?_isSome]
      obtain ⟨pl, hpl, hpe⟩ := hmem
      exact ⟨pl, hpl, by simp [hpe]⟩
    obtain ⟨pl, hpl⟩ := Option.isSome_iff_exists.mp hfind
    simp only [startGame, hg, if_neg hnn, if_pos hlt, hpl]
  · intro st cid rc r s hg heq hlen
    have hnn : ¬ s.hostId ≠ cid := fun hh => hh heq
    have hlt : ¬ s.players.length < 3 := by omega
    have hne : s.players ≠ [] := List.length_pos.mp (by omega)
    obtain ⟨s', hEq, hgs, hpl, -, -, hty⟩ :=
      startNewRound_spec (objSet st rc (typingSession s)) rc r (typingSession s)
        (objGet_objSet_self st rc _) hne
    refine ⟨s', ?_, hgs, hpl, hty⟩
    have hred : startGame st cid rc r =
        startNewRound (objSet st rc (typingSession s)) rc r := by
      simp only [startGame, hg, if_neg hnn, if_neg hlt]
    rw [hred, hEq]
    show objSet (objSet st rc (typingSession s)) rc s' = objSet st rc s'
    exact objSet_objSet st rc _ s'

/-- C1, witness for the amended theorem: the non-host request of the
counterexample, through the second clause. -/
theorem C1_witness :
    startGame [("R1", demoSession)] "A" "R1" 0 = ([("R1", demoSession)], [], false) :=
  C1_startGame_gating.2.1 [("R1", demoSession)] "A" "R1" 0 demoSession (by decide) (by decide)

/-- C2, counterexample.  In the reachable room R1 in phase READING
(typer H already submitted "first"), a second SUBMIT_TEXT from H mutates
the state — submittedText becomes "second" — and broadcasts, although
the phase is not TYPING.  This refutes the claim's phase condition. -/
theorem C2_counterexample :
    (roomAt (run [] reading3) "R1").gameState = "READING" ∧
    (roomAt (run [] reading3) "R1").rounds.currentTyperId = some "H" ∧
    (roomAt (step (run [] reading3) (submitOp "H" "R1" "second")).1 "R1").rounds.submittedText
      = "second" ∧
    (step (run [] reading3) (submitOp "H" "R1" "second")).2 ≠ [] := by
  decide

/-- C2, amended.  submitText mutates state (sets submittedText, sets
phase to READING, broadcasts) exactly when the room exists and the
sender's clientId equals currentTyperId — the phase is not checked; in
every other case it is silently ignored: no message is sent and the
state is unchanged. -/
theorem C2_submitText_typerOnly :
    (∀ st cid rc tx, objGet st rc = none → submitText st cid rc tx = (st, [])) ∧
    (∀ st cid rc tx s, objGet st rc = some s → s.rounds.currentTyperId ≠ some cid →
      submitText st cid rc tx = (st, [])) ∧
    (∀ st cid rc tx s, objGet st rc = some s → s.rounds.currentTyperId = some cid →
      submitText st cid rc tx =
        (objSet st rc (submitSession s tx),
         (submitSession s tx).players.map (fun p => ⟨p.clientId, "TEXT_SUBMITTED", ""⟩))) := by
  refine ⟨?_, ?_, ?_⟩
  · intro st cid rc tx hg
    simp [submitText, hg]
  · intro st cid rc tx s hg hne
    simp only [submitText, hg, if_pos hne]
  · intro st cid rc tx s hg heq
    have hnn : ¬ s.rounds.currentTyperId ≠ some cid := fun hh => hh heq
    simp only [submitText, hg, if_neg hnn]
    rw [broadcast_none _ _ _ _ (objGet_objSet_self st rc _)]

/-- C2, witness for the amended theorem: a SUBMIT_TEXT from a non-typer
is silently dropped, through the second clause. -/
theorem C2_witness :
    submitText [("R1", demoSession)] "A" "R1" "x" = ([("R1", demoSession)], []) :=
  C2_submitText_typerOnly.2.1 [("R1", demoSession)] "A" "R1" "x" demoSession
    (by decide) (by decide)

/-- C3, counterexample.  In the reachable room R1 in phase VOTING with
currentTyperId = H, a VOTE message from H itself is recorded: the votes
map gains the key H.  This refutes the claim that the typer never
appears as a key of votes. -/
theorem C3_counterexample :
    (roomAt (run [] voting3) "R1").gameState = "VOTING" ∧
    (roomAt (run [] voting3) "R1").rounds.currentTyperId = some "H" ∧
    (roomAt (step (run [] voting3) (voteOp "H" "R1" "A")).1 "R1").rounds.votes =
      [("H", "A")] := by
  decide

/-- C3, amended.  handleVote records votes[sender] = votedPlayerId for
every sender whenever the room exists and the phase is VOTING — there is
no check excluding the typer, so a VOTE sent by the current typer is
recorded like any other and the typer then appears as a key of votes. -/
theorem C3_typer_vote_recorded :
    ∀ st cid rc vp s, objGet st rc = some s → s.gameState = "VOTING" →
      ∃ s', objGet (handleVote st cid rc vp).1 rc = some s' ∧
        s'.rounds.votes = objSet s.rounds.votes cid vp ∧
        objGet s'.rounds.votes cid = some vp := by
  intro st cid rc vp s hg hph
  obtain ⟨s', h1, h2, -⟩ := handleVote_votes st cid rc vp s hg hph
  refine ⟨s', h1, h2, ?_⟩
  rw [h2]
  exact objGet_objSet_self _ _ _

/-- C3, witness for the amended theorem: the typer H's vote in the
concrete VOTING room is recorded. -/
theorem C3_witness :
    ∃ s', objGet (handleVote [("R1", demoVoting)] "H" "R1" "A").1 "R1" = some s' ∧
      s'.rounds.votes = objSet demoVoting.rounds.votes "H" "A" ∧
      objGet s'.rounds.votes "H" = some "A" :=
  C3_typer_vote_recorded [("R1", demoVoting)] "H" "R1" "A" demoVoting (by decide) (by decide)

/-- C4, counterexample.  Reachable state: room R1 is in VOTING with two
recorded votes, but two of the four players disconnected after voting,
leaving players.length = 2; the votes map, of size 2, exceeds
players.length - 1 = 1 — the claimed bound fails because a disconnecting
player's recorded vote is not removed. -/
theorem C4_counterexample :
    (roomAt (run [] votingLeave4) "R1").gameState = "VOTING" ∧
    (roomAt (run [] votingLeave4) "R1").rounds.votes.length = 2 ∧
    (roomAt (run [] votingLeave4) "R1").players.length = 2 ∧
    (roomAt (run [] votingLeave4) "R1").rounds.votes.length >
      (roomAt (run [] votingLeave4) "R1").players.length - 1 := by
  decide

/-- C4, amended.  In every reachable state the votes map holds at most
one entry per voter (its keys are pairwise distinct), and a second vote
from a voter already recorded overwrites the previous entry without
increasing the map's size; the size is, however, not bounded by
players.length - 1, because votes of players who disconnect during
VOTING stay in the map. -/
theorem C4_votes_one_per_voter :
    (∀ ops, EveryRoom (fun s => (s.rounds.votes.map Prod.fst).Nodup) (run [] ops)) ∧
    (∀ st cid rc vp s, objGet st rc = some s → s.gameState = "VOTING" →
      cid ∈ s.rounds.votes.map Prod.fst →
      ∃ s', objGet (handleVote st cid rc vp).1 rc = some s' ∧
        s'.rounds.votes.length = s.rounds.votes.length ∧
        objGet s'.rounds.votes cid = some vp) := by
  constructor
  · intro ops
    exact everyRoom_run stepPres_votesNodup closePres_votesNodup ops []
      (fun e he => by simp at he)
  · intro st cid rc vp s hg hph hmem
    obtain ⟨s', h1, h2, -⟩ := handleVote_votes st cid rc vp s hg hph
    refine ⟨s', h1, ?_, ?_⟩
    · rw [h2, objSet_length, if_pos hmem]
    · rw [h2]
      exact objGet_objSet_self _ _ _

/-- C4, witness for the amended theorem: A votes a second time in the
concrete VOTING room; the map size is unchanged and the entry is
overwritten. -/
theorem C4_witness :
    ∃ s', objGet (handleVote [("R1", demoVoting)] "A" "R1" "B").1 "R1" = some s' ∧
      s'.rounds.votes.length = demoVoting.rounds.votes.length ∧
      objGet s'.rounds.votes "A" = some "B" :=
  C4_votes_one_per_voter.2 [("R1", demoVoting)] "A" "R1" "B" demoVoting
    (by decide) (by decide) (by decide)

/-- C5, confirmed.  joinRoom errors RoomNotFound on an unknown code and
RoomFull at 8 or more members, in both cases leaving the state
unchanged; otherwise it appends exactly one Client with score 0 at the
end of players and broadcasts the updated room to all other members.
Room membership never exceeds 8 in any reachable state; along any run of
consecutive join attempts membership is clamped at 8, so once a room
holds 8 members — in particular at the 9th join attempt of a fresh room
— every further join is refused with RoomFull and changes nothing. -/
theorem C5_joinRoom_correct :
    (∀ st cid rc pn, objGet st rc = none →
      joinRoom st cid rc pn = (st, [⟨cid, "ERROR", "Room not found."⟩])) ∧
    (∀ st cid rc pn s, objGet st rc = some s → 8 ≤ s.players.length →
      joinRoom st cid rc pn = (st, [⟨cid, "ERROR", "Room is full."⟩])) ∧
    (∀ st cid rc pn s, objGet st rc = some s → s.players.length < 8 →
      joinRoom st cid rc pn =
        (objSet st rc (joinSession s cid pn),
         ⟨cid, "JOINED_ROOM", ""⟩ ::
           (s.players.filter (fun p => decide (p.clientId ≠ cid))).map
             (fun p => ⟨p.clientId, "UPDATE_GAME_STATE", ""⟩))) ∧
    (∀ ops, EveryRoom (fun s => s.players.length ≤ 8) (run [] ops)) ∧
    (∀ (js : List (String × String)) (st : Sessions) (rc : String) (s : Session),
      objGet st rc = some s → s.players.length ≤ 8 →
      ∃ s', objGet (run st (js.map (fun j => joinOp j.1 rc j.2))) rc = some s' ∧
        s'.players.length = min (s.players.length + js.length) 8) ∧
    (∀ st rc s cid pn, objGet st rc = some s → 8 ≤ s.players.length →
      step st (joinOp cid rc pn) = (st, [⟨cid, "ERROR", "Room is full."⟩])) := by
  refine ⟨joinRoom_notFound, joinRoom_full, joinRoom_ok, ?_, run_joins_min, ?_⟩
  · intro ops
    exact everyRoom_run stepPres_len closePres_len ops [] (fun e he => by simp at he)
  · intro st rc s cid pn hg h8
    rw [step_joinOp]
    exact joinRoom_full st cid rc pn s hg h8

/-- C5, witness: a join to an unknown room code fails with the
RoomNotFound error, through the first clause. -/
theorem C5_witness :
    joinRoom [] "X" "R2" "n" = ([], [⟨"X", "ERROR", "Room not found."⟩]) :=
  C5_joinRoom_correct.1 [] "X" "R2" "n" (by decide)

/-- C6, confirmed.  Iterating startNewRound on a room with a fixed
player set and a fresh rotation list: (i) along any sequence of rounds,
any two players' typer counts differ by at most one — so no player is
chosen a second time before every other player has been chosen once;
(ii) the player set is unchanged by a round start; (iii) each round
picks its typer from the players not yet in playersWhoHaveTyped,
resetting that list to empty (and the pool to the full current player
list) exactly when every present player is already recorded, and appends
the chosen id to the list. -/
theorem C6_round_robin :
    (∀ (s : Session) (rs : List Nat), s.players ≠ [] →
      s.rounds.playersWhoHaveTyped = [] →
      ∀ p q, p ∈ s.players.map Player.clientId → q ∈ s.players.map Player.clientId →
        cnt p (roundTypers s rs) ≤ cnt q (roundTypers s rs) + 1) ∧
    (∀ s r, (startNewRoundS s r).1.players = s.players) ∧
    (∀ (s : Session) (r : Nat), s.players ≠ [] →
      ∃ t, (startNewRoundS s r).1.rounds.currentTyperId = some t ∧
        t ∈ s.players.map Player.clientId ∧
        ((∀ pl ∈ s.players, pl.clientId ∈ s.rounds.playersWhoHaveTyped) ∧
           (startNewRoundS s r).1.rounds.playersWhoHaveTyped = [t] ∨
         t ∉ s.rounds.playersWhoHaveTyped ∧
           (startNewRoundS s r).1.rounds.playersWhoHaveTyped =
             s.rounds.playersWhoHaveTyped ++ [t])) := by
  refine ⟨?_, players_startNewRoundS, fun s r hne => (startNewRoundS_typed s r hne).2⟩
  intro s rs hne hW p q hp hq
  have hbal := roundTypers_balanced rs s hne p q hp hq
  rw [hW] at hbal
  simpa using hbal

/-- C6, witness: a concrete three-round rotation on the demo room. -/
theorem C6_witness :
    cnt "H" (roundTypers demoSession [0, 1, 0]) ≤
      cnt "A" (roundTypers demoSession [0, 1, 0]) + 1 :=
  C6_round_robin.1 demoSession [0, 1, 0] (by decide) rfl "H" "A" (by decide) (by decide)

set_option maxRecDepth 16000 in
/-- C7, counterexample.  A reachable 16-round game: player A earns 10
points by round 14, where the phase correctly becomes END; the host then
starts another round (NEXT_ROUND is not gated) and every voter votes
wrongly, so calculateScores finds no newly incremented winner and sets
the phase to SCORE although A's score is 10 ≥ 10.  This refutes the
claim that the phase becomes END whenever any player's score is ≥ 10. -/
theorem C7_counterexample :
    (roomAt (run [] c7trace) "R1").gameState = "SCORE" ∧
    (roomAt (run [] c7trace) "R1").players =
      [⟨"H", "h", 0⟩, ⟨"A", "a", 10⟩, ⟨"B", "b", 0⟩] := by
  decide

/-- C7, amended.  calculateScores increments by exactly 1 the score of
each player whose recorded vote equals currentTyperId (crediting the
voter), changes no other score, and broadcasts to all members; the phase
becomes END exactly when some player incremented in this very call
reaches a score of 10 or more — a player whose score was already ≥ 10
but receives no new increment does not trigger END, and the phase
becomes SCORE instead.  (The hypothesis that the typer id is a non-empty
string holds in every reachable call: client ids are non-empty random
strings.) -/
theorem C7_calculateScores_spec :
    ∀ st rc s t, objGet st rc = some s → s.rounds.currentTyperId = some t → t ≠ "" →
      ∃ s', calculateScores st rc =
          (objSet st rc s', s'.players.map (fun p => ⟨p.clientId, "ROUND_OVER", ""⟩)) ∧
        s'.players = s.players.map (fun p =>
          if objGet s.rounds.votes p.clientId = some t then { p with score := p.score + 1 }
          else p) ∧
        s'.gameState =
          (if s.players.any (fun p =>
              decide (objGet s.rounds.votes p.clientId = some t) && decide (10 ≤ p.score + 1))
            then "END" else "SCORE") ∧
        s'.rounds = s.rounds := by
  intro st rc s t hg hty ht
  refine ⟨calcSession s, ?_, ?_, ?_, rfl⟩
  · simp only [calculateScores, hg]
    rw [broadcast_none _ _ _ _ (objGet_objSet_self st rc _)]
  · have hf : applyVote (some t) s.rounds.votes = (fun p =>
        if objGet s.rounds.votes p.clientId = some t then { p with score := p.score + 1 }
        else p) :=
      funext fun p => applyVote_eq t ht s.rounds.votes p
    simp only [calcSession, hty, hf]
  · have hf : (fun p => voteHit (some t) s.rounds.votes p && decide (10 ≤ p.score + 1))
        = (fun p => decide (objGet s.rounds.votes p.clientId = some t) &&
            decide (10 ≤ p.score + 1)) :=
      funext fun p => by rw [voteHit_eq t ht]
    simp only [calcSession, hty, hf]

/-- C7, witness: scoring the concrete VOTING room, where A's vote for
the typer H earns A one point and the phase becomes SCORE. -/
theorem C7_witness :
    ∃ s', calculateScores [("R1", demoVoting)] "R1" =
        (objSet [("R1", demoVoting)] "R1" s',
         s'.players.map (fun p => ⟨p.clientId, "ROUND_OVER", ""⟩)) ∧
      s'.players = demoVoting.players.map (fun p =>
        if objGet demoVoting.rounds.votes p.clientId = some "H" then
          { p with score := p.score + 1 } else p) ∧
      s'.gameState =
        (if demoVoting.players.any (fun p =>
            decide (objGet demoVoting.rounds.votes p.clientId = some "H") &&
              decide (10 ≤ p.score + 1))
          then "END" else "SCORE") ∧
      s'.rounds = demoVoting.rounds :=
  C7_calculateScores_spec [("R1", demoVoting)] "R1" demoVoting "H"
    (by decide) (by decide) (by decide)

/-- C8, counterexample.  In the reachable room R1 still in LOBBY, a
NEXT_ROUND message from the non-host A starts a round: the phase becomes
TYPING and a typer is assigned.  This refutes both parts of the claim's
gating (phase SCORE only, host only). -/
theorem C8_counterexample :
    (roomAt (run [] lobby3) "R1").gameState = "LOBBY" ∧
    (roomAt (run [] lobby3) "R1").hostId = "H" ∧
    (roomAt (step (run [] lobby3) (nextOp "A" "R1" 0)).1 "R1").gameState = "TYPING" ∧
    (roomAt (step (run [] lobby3) (nextOp "A" "R1" 0)).1 "R1").rounds.currentTyperId
      = some "H" := by
  decide

/-- C8, amended.  The NEXT_ROUND message dispatches straight to
startNewRound with no host check and no phase check: from any sender and
in any phase it resets the round data, picks a typer and moves the room
to TYPING; only an unknown room code makes it a no-op. -/
theorem C8_nextRound_ungated :
    (∀ st sid pl r g, objGet st pl.roomCode = none →
      onMessage st sid ⟨"NEXT_ROUND", some pl⟩ r g = (st, [])) ∧
    (∀ st sid pl r g s, objGet st pl.roomCode = some s → s.players ≠ [] →
      ∃ s', onMessage st sid ⟨"NEXT_ROUND", some pl⟩ r g =
          (objSet st pl.roomCode s',
           s'.players.map (fun p => ⟨p.clientId, "NEW_ROUND", ""⟩)) ∧
        s'.gameState = "TYPING" ∧ s'.players = s.players ∧
        s'.rounds.votes = [] ∧ s'.rounds.submittedText = "" ∧
        ∃ p ∈ s.players, s'.rounds.currentTyperId = some p.clientId) := by
  constructor
  · intro st sid pl r g hg
    simp [onMessage, handleMessage, startNewRound, hg]
  · intro st sid pl r g s hg hne
    obtain ⟨s', hEq, hgs, hpl, htx, hv, hty⟩ := startNewRound_spec st pl.roomCode r s hg hne
    refine ⟨s', ?_, hgs, hpl, hv, htx, hty⟩
    have hred : onMessage st sid ⟨"NEXT_ROUND", some pl⟩ r g =
        (if (startNewRound st pl.roomCode r).2.2 then
           ((startNewRound st pl.roomCode r).1,
            (startNewRound st pl.roomCode r).2.1 ++
              [⟨sid, "ERROR", "Invalid message format."⟩])
         else ((startNewRound st pl.roomCode r).1, (startNewRound st pl.roomCode r).2.1)) := by
      simp [onMessage, handleMessage]
    rw [hred, hEq]
    simp

/-- C8, witness: a NEXT_ROUND from the non-host A on the LOBBY demo
room starts a round. -/
theorem C8_witness :
    ∃ s', onMessage [("R1", demoSession)] "A"
        ⟨"NEXT_ROUND", some (pl0 "R1" "" "" "" "")⟩ 0 "" =
        (objSet [("R1", demoSession)] "R1" s',
         s'.players.map (fun p => ⟨p.clientId, "NEW_ROUND", ""⟩)) ∧
      s'.gameState = "TYPING" ∧ s'.players = demoSession.players ∧
      s'.rounds.votes = [] ∧ s'.rounds.submittedText = "" ∧
      ∃ p ∈ demoSession.players, s'.rounds.currentTyperId = some p.clientId :=
  C8_nextRound_ungated.2 [("R1", demoSession)] "A" (pl0 "R1" "" "" "" "") 0 ""
    demoSession (by decide) (by decide)

/-- C9, counterexample.  The typer H disconnects during TYPING; the
close handler removes H from players but never clears or reassigns
currentTyperId, so the reachable room has currentTyperId = H while H is
no longer a member.  This refutes the claim that removal of a
disconnected client preserves the invariant. -/
theorem C9_counterexample :
    (roomAt (run [] c9trace) "R1").rounds.currentTyperId = some "H" ∧
    (roomAt (run [] c9trace) "R1").players.map Player.clientId = ["A", "B"] ∧
    "H" ∉ (roomAt (run [] c9trace) "R1").players.map Player.clientId := by
  decide

/-- C9, amended.  In every state reachable without any client
disconnect, a set currentTyperId names a player currently in players:
every message- and timer-driven operation preserves the invariant; it is
only the removal of a disconnected client that can break it, because the
close handler does not touch currentTyperId. -/
theorem C9_typer_present :
    ∀ ops : List Op, (∀ op ∈ ops, isCloseOp op = false) →
      ∀ rc s t, objGet (run [] ops) rc = some s →
        s.rounds.currentTyperId = some t → t ∈ s.players.map Player.clientId := by
  intro ops hnc rc s t hg hty
  have h := everyRoom_run_of_noclose stepPres_typer ops hnc []
    (fun e he => by simp at he)
  exact h (rc, s) (objGet_mem hg) t hty

/-- C9, witness: in the disconnect-free trace reaching TYPING, the
typer H is a present player. -/
theorem C9_witness :
    "H" ∈ (roomAt (run [] typing3) "R1").players.map Player.clientId :=
  C9_typer_present typing3 (by decide) "R1" (roomAt (run [] typing3) "R1") "H"
    (by decide) (by decide)

/-- C10, confirmed.  For every inbound envelope whose payload is absent
or null, whatever its type — known or unknown — the property assignment
`payload.ws = ws` throws before the dispatch switch; the try/catch of
the message handler converts the throw into exactly one ERROR reply
"Invalid message format." to the sender, the server state is unchanged,
and the connection is not closed (the catch block only sends; no handler
contains a close call, so the model has no close effect). -/
theorem C10_invalid_payload :
    ∀ st sid ty r g, onMessage st sid ⟨ty, none⟩ r g =
      (st, [⟨sid, "ERROR", "Invalid message format."⟩]) :=
  fun _ _ _ _ _ => rfl

end MG
